import Mathlib

/-!
Shallow embedding of the loan-tracking ledger application
(`src/finance2/app.py`, Flask + SQLAlchemy variant).

Modelling conventions:
* Python `float` amounts are modelled as exact rationals `ℚ`; Python's
  `float(text)` parsing is abstracted as a parameter
  `parse : String → Option ℚ` (`none` models a `ValueError`).
* The SQLAlchemy session is modelled as an explicit `Store` value threaded
  through the handlers; each handler returns the (possibly updated) store
  together with an `Except AppError` result, mirroring that a handler that
  flashes an error and redirects performs no commit.
* `datetime.now().strftime` is abstracted as an explicit `date` argument.
* Python's `str.strip` / `str.lower` / the two `re.sub` calls of
  `sanitize_username` are modelled character-list-wise below.
* The CSV writer models Python's `csv.writer` default (excel) dialect:
  comma delimiter, minimal quoting (a field is quoted iff it contains the
  delimiter, the quote character, or a line-terminator character, with
  embedded quotes doubled) and `\r\n` as the row terminator.
-/

namespace Finance

/-- Python `str.isspace`-style whitespace characters relevant to `str.strip`
and the regex `\s` on ASCII text. -/
def isPySpace (c : Char) : Bool :=
  c == ' ' || c == '\t' || c == '\n' || c == '\r' || c == '\x0b' || c == '\x0c'

/-- ASCII lower-casing, the effect of Python's `str.lower` on ASCII text. -/
def asciiLower (c : Char) : Char :=
  if 'A' ≤ c ∧ c ≤ 'Z' then Char.ofNat (c.toNat + 32) else c

/-- The character class `[a-z0-9_-]` kept by `sanitize_username`'s final
`re.sub(r"[^a-z0-9_\-]", "", s)`. -/
def isAllowed (c : Char) : Bool :=
  (decide ('a' ≤ c) && decide (c ≤ 'z')) ||
  (decide ('0' ≤ c) && decide (c ≤ '9')) ||
  c == '_' || c == '-'

/-- Python `str.strip()`: drop leading and trailing whitespace. -/
def pyStrip (l : List Char) : List Char :=
  ((l.dropWhile isPySpace).reverse.dropWhile isPySpace).reverse

/-- Python `str.strip()` on a `String`. -/
def pyStripStr (s : String) : String := ⟨pyStrip s.data⟩

/-- Model of `re.sub` applied with pattern backslash-s-plus and replacement
underscore: replace every maximal run of whitespace by a single underscore. -/
def collapseWS : List Char → List Char
  | [] => []
  | [c] => if isPySpace c then ['_'] else [c]
  | c :: d :: rest =>
    if isPySpace c then
      if isPySpace d then collapseWS (d :: rest) else '_' :: collapseWS (d :: rest)
    else c :: collapseWS (d :: rest)

/-- Model of `sanitize_username` from `app.py`: strip and lower-case the
name, collapse whitespace runs to underscores, then drop every character
outside the allowed class. -/
def sanitize_username (name : String) : String :=
  ⟨(collapseWS ((pyStrip name.data).map asciiLower)).filter isAllowed⟩

/-- A row of the `Payment` table. `notes` is nullable. -/
structure Payment where
  date : String
  payment_amount : ℚ
  remaining_balance : ℚ
  notes : Option String
  deriving DecidableEq

/-- A row of the `User` table, together with its `payments` relationship
(the user's Payment rows in insertion (`Payment.id`) order). -/
structure User where
  name : String
  username : String
  total_loan : ℚ
  contact_info : String
  payments : List Payment
  deriving DecidableEq

/-- The database: all `User` rows in insertion order. -/
structure Store where
  users : List User
  deriving DecidableEq

/-- The three error outcomes a handler can flash. -/
inductive AppError where
  | ValidationError
  | AlreadyExists
  | NotFound
  deriving DecidableEq

/-- Model of the query `User.query.filter_by(username=uname).first()`. -/
def findUser? (s : Store) (uname : String) : Option User :=
  s.users.find? (fun u => u.username == uname)

/-- The prior balance used by `record_payment`: the most recently appended
Payment's `remaining_balance` if one exists, else `user.total_loan`. -/
def prevBalance (u : User) : ℚ :=
  match u.payments.getLast? with
  | some p => p.remaining_balance
  | none => u.total_loan

/-- Append a Payment row for the user with the given username
(`db.session.add(payment); db.session.commit()`). -/
def appendPayment (s : Store) (uname : String) (p : Payment) : Store :=
  ⟨s.users.map (fun u =>
    if u.username == uname then { u with payments := u.payments ++ [p] } else u)⟩

/-- Model of `list_users`: all usernames ordered by `User.username`
ascending. -/
def list_users (s : Store) : List String :=
  List.insertionSort (fun a b => a ≤ b) (s.users.map (fun u => u.username))

/-- The POST branch of the `add_user` route. Returns the store after the
request together with the flashed outcome (`ok` carries the new username). -/
def add_user (parse : String → Option ℚ) (s : Store)
    (name_raw total_loan_raw contact_raw date : String) :
    Store × Except AppError String :=
  let name := pyStripStr name_raw
  let total_loan := pyStripStr total_loan_raw
  let contact_info := pyStripStr contact_raw
  if name = "" ∨ total_loan = "" then (s, .error .ValidationError)
  else
    match parse total_loan with
    | none => (s, .error .ValidationError)
    | some total_loan_val =>
      let uname := sanitize_username name
      if (findUser? s uname).isSome then (s, .error .AlreadyExists)
      else
        let payment : Payment :=
          ⟨date, 0, total_loan_val,
            some ("Loan started" ++ (if contact_info ≠ "" then " | " ++ contact_info else ""))⟩
        (⟨s.users ++ [⟨name, uname, total_loan_val, contact_info, [payment]⟩]⟩, .ok uname)

/-- The POST branch of the `record_payment` route. Returns the store after
the request together with the flashed outcome (`ok` carries the new
remaining balance). -/
def record_payment (parse : String → Option ℚ) (s : Store)
    (username amount_raw notes_raw date : String) :
    Store × Except AppError ℚ :=
  let payment_amount := pyStripStr amount_raw
  let notes := pyStripStr notes_raw
  if username = "" ∨ payment_amount = "" then (s, .error .ValidationError)
  else
    match parse payment_amount with
    | none => (s, .error .ValidationError)
    | some payment_val =>
      match findUser? s username with
      | none => (s, .error .NotFound)
      | some user =>
        let new_balance := prevBalance user - payment_val
        let payment : Payment := ⟨date, payment_val, new_balance, some notes⟩
        (appendPayment s username payment, .ok new_balance)

/-- The `view_history` route: the user's Payment rows in insertion order,
the total paid, and the current remaining balance. `none` models the
user-not-found redirect. -/
def view_history (s : Store) (username : String) :
    Option (List Payment × ℚ × ℚ) :=
  match findUser? s username with
  | none => none
  | some user =>
    let records := user.payments
    let total_paid := (records.map (fun r => r.payment_amount)).sum
    let remaining :=
      match records.getLast? with
      | some r => r.remaining_balance
      | none => user.total_loan
    some (records, total_paid, remaining)

/-- Does `csv.writer`'s minimal quoting quote this field? (It quotes iff the
field contains the delimiter, the quote character, or a character of the
`\r\n` line terminator.) -/
def csvNeedsQuote (s : String) : Bool :=
  s.data.any (fun c => c == ',' || c == '"' || c == '\r' || c == '\n')

/-- Double every embedded quote character. -/
def csvEscape (l : List Char) : List Char :=
  l.foldr (fun c acc => if c == '"' then '"' :: '"' :: acc else c :: acc) []

/-- One CSV field as written by `csv.writer` (excel dialect, minimal
quoting). -/
def csvField (s : String) : String :=
  if csvNeedsQuote s then "\"" ++ (⟨csvEscape s.data⟩ : String) ++ "\"" else s

/-- One CSV row as written by `writer.writerow`: comma-separated fields
followed by the `\r\n` line terminator. -/
def csvRow : List String → String
  | [] => "\r\n"
  | [f] => csvField f ++ "\r\n"
  | f :: rest => csvField f ++ "," ++ csvRow rest

/-- The header list `CSV_HEADERS` from `app.py`. -/
def CSV_HEADERS : List String := ["Date", "Payment_Amount", "Remaining_Balance", "Notes"]

/-- The `download` route: the CSV text generated in memory for the user, or
`none` for the 404. The `render` parameter abstracts Python's f-string
rendering of a float, i.e. the decimal string form of the number. -/
def download (render : ℚ → String) (s : Store) (username : String) :
    Option String :=
  match findUser? s username with
  | none => none
  | some user =>
    some (csvRow CSV_HEADERS ++
      String.join (user.payments.map (fun r =>
        csvRow [r.date, render r.payment_amount, render r.remaining_balance,
          r.notes.getD ""])))

/-- The amount a successful `record_payment` records for a form item
`(amount_text, notes, date)`. -/
def itemAmount (parse : String → Option ℚ) (it : String × String × String) : ℚ :=
  (parse (pyStripStr it.1)).getD 0

/-- Run a sequence of `record_payment` requests for one username, threading
the store. -/
def run_payments (parse : String → Option ℚ) (uname : String) :
    Store → List (String × String × String) → Store
  | s, [] => s
  | s, it :: rest =>
    run_payments parse uname (record_payment parse s uname it.1 it.2.1 it.2.2).1 rest

/-- The ledger recurrence: starting from seed balance `b`, every entry's
`remaining_balance` is the previous balance minus its `payment_amount`. -/
def chainOk : ℚ → List Payment → Prop
  | _, [] => True
  | b, p :: rest =>
    p.remaining_balance = b - p.payment_amount ∧ chainOk p.remaining_balance rest

/-- Balance of the last entry of a ledger, or the seed `b` if it is empty. -/
def ledgerLast (b : ℚ) : List Payment → ℚ
  | [] => b
  | p :: rest => ledgerLast p.remaining_balance rest

/-- A tiny concrete stand-in for Python `float` parsing, used to instantiate
the `parse` parameter on concrete inputs. -/
def toyParse : String → Option ℚ :=
  fun s =>
    if s = "100" then some 100
    else if s = "30" then some 30
    else if s = "5" then some 5
    else if s = "20" then some 20
    else none

/-- Equality of handler outcomes is decidable. -/
instance {ε α : Type} [DecidableEq ε] [DecidableEq α] : DecidableEq (Except ε α) := fun a b =>
  match a, b with
  | .error e, .error f =>
    if h : e = f then .isTrue (congrArg Except.error h)
    else .isFalse (fun hc => h (Except.error.inj hc))
  | .error _, .ok _ => .isFalse (fun hc => Except.noConfusion hc)
  | .ok _, .error _ => .isFalse (fun hc => Except.noConfusion hc)
  | .ok x, .ok y =>
    if h : x = y then .isTrue (congrArg Except.ok h)
    else .isFalse (fun hc => h (Except.ok.inj hc))

/-- A string that triggers no CSV quoting: it contains no delimiter, no
quote character and no line-terminator character. This holds of every field
the app actually writes for dates and numbers. -/
def plainField (s : String) : Prop :=
  ∀ c ∈ s.data, ¬(c = ',' ∨ c = '"' ∨ c = '\r' ∨ c = '\n')

/-- Whether a field is quoting-free is decidable. -/
instance plainFieldDec (s : String) : Decidable (plainField s) :=
  inferInstanceAs (Decidable (∀ c ∈ s.data, ¬(c = ',' ∨ c = '"' ∨ c = '\r' ∨ c = '\n')))

/-! ### Helper lemmas about the store operations -/

theorem find?_user_update (l : List User) (uname : String) (p : Payment) :
    (l.map (fun u =>
        if u.username == uname then { u with payments := u.payments ++ [p] } else u)).find?
        (fun u => u.username == uname) =
      (l.find? (fun u => u.username == uname)).map
        (fun u => { u with payments := u.payments ++ [p] }) := by
  induction l with
  | nil => rfl
  | cons a t ih =>
    rw [List.map_cons]
    by_cases h : (a.username == uname) = true
    · rw [if_pos h]
      rw [List.find?_cons, List.find?_cons, h]
      rfl
    · have hf : (a.username == uname) = false := by simpa using h
      rw [if_neg h, List.find?_cons, List.find?_cons, hf]
      exact ih

theorem findUser?_appendPayment (s : Store) (uname : String) (p : Payment) :
    findUser? (appendPayment s uname p) uname =
      (findUser? s uname).map (fun u => { u with payments := u.payments ++ [p] }) :=
  find?_user_update s.users uname p

theorem appendPayment_users (s : Store) (uname : String) (p : Payment) :
    (appendPayment s uname p).users =
      s.users.map (fun u =>
        if u.username == uname then { u with payments := u.payments ++ [p] } else u) := rfl

theorem findUser?_snoc_self (s : Store) (u : User)
    (hfree : findUser? s u.username = none) :
    findUser? (⟨s.users ++ [u]⟩ : Store) u.username = some u := by
  unfold findUser? at hfree ⊢
  rw [List.find?_append, hfree, Option.none_or]
  simp [List.find?_cons]

theorem record_payment_ok (parse : String → Option ℚ) (s : Store)
    (uname amt note d : String) (v : ℚ) (u : User)
    (hu : uname ≠ "") (ha : pyStripStr amt ≠ "") (hv : parse (pyStripStr amt) = some v)
    (hfind : findUser? s uname = some u) :
    record_payment parse s uname amt note d =
      (appendPayment s uname ⟨d, v, prevBalance u - v, some (pyStripStr note)⟩,
        Except.ok (prevBalance u - v)) := by
  simp only [record_payment]
  rw [if_neg (not_or.mpr ⟨hu, ha⟩), hv, hfind]

theorem record_payment_validation_err (parse : String → Option ℚ) (s : Store)
    (uname amt note d : String)
    (h : uname = "" ∨ pyStripStr amt = "" ∨ parse (pyStripStr amt) = none) :
    record_payment parse s uname amt note d = (s, Except.error AppError.ValidationError) := by
  simp only [record_payment]
  rcases h with h | h | h
  · rw [if_pos (Or.inl h)]
  · rw [if_pos (Or.inr h)]
  · by_cases h1 : uname = "" ∨ pyStripStr amt = ""
    · rw [if_pos h1]
    · rw [if_neg h1, h]

theorem record_payment_notfound_err (parse : String → Option ℚ) (s : Store)
    (uname amt note d : String) (v : ℚ)
    (hu : uname ≠ "") (ha : pyStripStr amt ≠ "") (hv : parse (pyStripStr amt) = some v)
    (hfind : findUser? s uname = none) :
    record_payment parse s uname amt note d = (s, Except.error AppError.NotFound) := by
  simp only [record_payment]
  rw [if_neg (not_or.mpr ⟨hu, ha⟩), hv, hfind]

theorem add_user_ok (parse : String → Option ℚ) (s : Store)
    (nm ln ct d : String) (P : ℚ)
    (hn : pyStripStr nm ≠ "") (hl : pyStripStr ln ≠ "")
    (hp : parse (pyStripStr ln) = some P)
    (hfree : findUser? s (sanitize_username (pyStripStr nm)) = none) :
    add_user parse s nm ln ct d =
      (⟨s.users ++ [⟨pyStripStr nm, sanitize_username (pyStripStr nm), P, pyStripStr ct,
          [⟨d, 0, P, some ("Loan started" ++
            (if pyStripStr ct ≠ "" then " | " ++ pyStripStr ct else ""))⟩]⟩]⟩,
        Except.ok (sanitize_username (pyStripStr nm))) := by
  simp only [add_user]
  rw [if_neg (not_or.mpr ⟨hn, hl⟩), hp, hfree]
  rfl

/-! ### Ledger recurrence lemmas -/

theorem ledgerLast_append (l : List Payment) (p : Payment) :
    ∀ b : ℚ, ledgerLast b (l ++ [p]) = p.remaining_balance := by
  induction l with
  | nil => intro b; rfl
  | cons q t ih =>
    intro b
    rw [List.cons_append]
    exact ih q.remaining_balance

theorem chainOk_append {l : List Payment} {p : Payment} :
    ∀ {b : ℚ}, chainOk b l →
      p.remaining_balance = ledgerLast b l - p.payment_amount → chainOk b (l ++ [p]) := by
  induction l with
  | nil => intro b _ hp; exact ⟨hp, trivial⟩
  | cons q t ih =>
    intro b h hp
    obtain ⟨h1, h2⟩ := h
    exact ⟨h1, ih h2 hp⟩

theorem ledgerLast_of_getLast? :
    ∀ {l : List Payment} {p : Payment}, l.getLast? = some p →
      ∀ b : ℚ, ledgerLast b l = p.remaining_balance
  | [], _, h, _ => by cases h
  | [q], p, h, b => by
    have hq : q = p := by simpa using h
    subst hq
    rfl
  | q :: r :: t, p, h, b => by
    rw [List.getLast?_cons_cons] at h
    exact ledgerLast_of_getLast? h q.remaining_balance

theorem prevBalance_eq_ledgerLast {u : User} (h : u.payments ≠ []) (b : ℚ) :
    prevBalance u = ledgerLast b u.payments := by
  unfold prevBalance
  cases hq : u.payments.getLast? with
  | none => exact absurd (List.getLast?_eq_none_iff.mp hq) h
  | some p => exact (ledgerLast_of_getLast? hq b).symm

theorem chainOk_sum {l : List Payment} :
    ∀ {b : ℚ}, chainOk b l →
      ledgerLast b l = b - (l.map (fun q => q.payment_amount)).sum := by
  induction l with
  | nil => intro b _; simp [ledgerLast]
  | cons p t ih =>
    intro b h
    obtain ⟨h1, h2⟩ := h
    show ledgerLast p.remaining_balance t = _
    rw [ih h2, h1, List.map_cons, List.sum_cons]
    ring

/-! ### Behaviour of a run of successful payments -/

theorem run_payments_spec (parse : String → Option ℚ) (uname : String) (hu : uname ≠ "") :
    ∀ (items : List (String × String × String)) (s : Store) (u : User),
      (∀ it ∈ items, pyStripStr it.1 ≠ "" ∧ (parse (pyStripStr it.1)).isSome = true) →
      findUser? s uname = some u → u.payments ≠ [] →
      ∃ u', findUser? (run_payments parse uname s items) uname = some u' ∧
        u'.payments ≠ [] ∧
        u'.payments.length = u.payments.length + items.length ∧
        u'.payments.head? = u.payments.head? ∧
        ∀ b : ℚ, chainOk b u.payments →
          chainOk b u'.payments ∧
          ledgerLast b u'.payments =
            ledgerLast b u.payments - (items.map (itemAmount parse)).sum := by
  intro items
  induction items with
  | nil =>
    intro s u _ hfind hne
    exact ⟨u, hfind, hne, by simp, rfl, fun b hb => ⟨hb, by simp⟩⟩
  | cons it rest ih =>
    intro s u hitems hfind hne
    obtain ⟨ha, hsome⟩ := hitems it (List.mem_cons_self it rest)
    obtain ⟨v, hv⟩ := Option.isSome_iff_exists.mp hsome
    have hstep := record_payment_ok parse s uname it.1 it.2.1 it.2.2 v u hu ha hv hfind
    have hrun : run_payments parse uname s (it :: rest) =
        run_payments parse uname
          (appendPayment s uname ⟨it.2.2, v, prevBalance u - v, some (pyStripStr it.2.1)⟩)
          rest := by
      show run_payments parse uname (record_payment parse s uname it.1 it.2.1 it.2.2).1 rest = _
      rw [hstep]
    have hfind1 : findUser?
        (appendPayment s uname ⟨it.2.2, v, prevBalance u - v, some (pyStripStr it.2.1)⟩) uname =
        some { u with payments :=
          u.payments ++ [⟨it.2.2, v, prevBalance u - v, some (pyStripStr it.2.1)⟩] } := by
      rw [findUser?_appendPayment, hfind]
      rfl
    obtain ⟨u', hfind', hne', hlen', hhead', hchain'⟩ :=
      ih _ _ (fun j hj => hitems j (List.mem_cons_of_mem it hj)) hfind1 (by simp)
    rw [hrun]
    refine ⟨u', hfind', hne', ?_, ?_, ?_⟩
    · rw [hlen']
      show (u.payments ++ [(⟨it.2.2, v, prevBalance u - v, some (pyStripStr it.2.1)⟩ : Payment)]).length
            + rest.length = u.payments.length + (it :: rest).length
      simp only [List.length_append, List.length_cons, List.length_nil]
      omega
    · rw [hhead']
      cases hup : u.payments with
      | nil => exact absurd hup hne
      | cons a t => rfl
    · intro b hb
      have hbal : (⟨it.2.2, v, prevBalance u - v, some (pyStripStr it.2.1)⟩ : Payment).remaining_balance
          = ledgerLast b u.payments -
            (⟨it.2.2, v, prevBalance u - v, some (pyStripStr it.2.1)⟩ : Payment).payment_amount := by
        show prevBalance u - v = ledgerLast b u.payments - v
        rw [prevBalance_eq_ledgerLast hne b]
      have hchain1 := chainOk_append hb hbal
      obtain ⟨hc', hl'⟩ := hchain' b hchain1
      refine ⟨hc', ?_⟩
      rw [hl']
      show ledgerLast b (u.payments ++ [_]) - _ = _
      rw [ledgerLast_append]
      show prevBalance u - v - _ = _
      rw [prevBalance_eq_ledgerLast hne b, List.map_cons, List.sum_cons]
      have hit : itemAmount parse it = v := by
        unfold itemAmount
        rw [hv]
        rfl
      rw [hit]
      ring

/-! ### Fixed points of the identity normalization -/

theorem isAllowed_not_space {c : Char} (h : isAllowed c = true) : isPySpace c = false := by
  cases hs : isPySpace c
  · rfl
  · exfalso
    simp only [isPySpace, Bool.or_eq_true, beq_iff_eq] at hs
    rcases hs with ((((h1 | h1) | h1) | h1) | h1) | h1 <;> subst h1 <;>
      exact absurd h (by decide)

theorem isAllowed_lower_fixed {c : Char} (h : isAllowed c = true) : asciiLower c = c := by
  have hn : ¬('A' ≤ c ∧ c ≤ 'Z') := by
    rintro ⟨h1, h2⟩
    simp only [isAllowed, Bool.or_eq_true, Bool.and_eq_true, decide_eq_true_eq,
      beq_iff_eq] at h
    rcases h with ((⟨ha, _⟩ | ⟨_, hb⟩) | hx) | hx
    · exact absurd (le_trans ha h2) (by decide)
    · exact absurd (le_trans h1 hb) (by decide)
    · subst hx; exact absurd h2 (by decide)
    · subst hx; exact absurd h1 (by decide)
  unfold asciiLower
  rw [if_neg hn]

theorem dropWhile_id_of_false {α : Type} (p : α → Bool) :
    ∀ l : List α, (∀ c ∈ l, p c = false) → l.dropWhile p = l
  | [], _ => rfl
  | a :: t, h => by
    rw [List.dropWhile_cons, h a (List.mem_cons_self a t)]
    simp

theorem map_id_of_fix {α : Type} (f : α → α) :
    ∀ l : List α, (∀ c ∈ l, f c = c) → l.map f = l
  | [], _ => rfl
  | a :: t, h => by
    rw [List.map_cons, h a (List.mem_cons_self a t),
      map_id_of_fix f t (fun c hc => h c (List.mem_cons_of_mem a hc))]

theorem pyStrip_id_of_no_space {l : List Char}
    (h : ∀ c ∈ l, isPySpace c = false) : pyStrip l = l := by
  unfold pyStrip
  rw [dropWhile_id_of_false isPySpace l h]
  rw [dropWhile_id_of_false isPySpace l.reverse
    (fun c hc => h c (List.mem_reverse.mp hc))]
  exact List.reverse_reverse l

theorem collapseWS_id_of_no_space :
    ∀ l : List Char, (∀ c ∈ l, isPySpace c = false) → collapseWS l = l
  | [], _ => rfl
  | [c], h => by
    simp [collapseWS, h c (List.mem_cons_self c [])]
  | c :: d :: t, h => by
    have hc := h c (List.mem_cons_self c (d :: t))
    have rest : ∀ x ∈ d :: t, isPySpace x = false :=
      fun x hx => h x (List.mem_cons_of_mem c hx)
    simp [collapseWS, hc, collapseWS_id_of_no_space (d :: t) rest]

theorem sanitize_username_eq_self {s : String}
    (h : ∀ c ∈ s.data, isAllowed c = true) : sanitize_username s = s := by
  have hsp : ∀ c ∈ s.data, isPySpace c = false := fun c hc => isAllowed_not_space (h c hc)
  unfold sanitize_username
  rw [pyStrip_id_of_no_space hsp]
  rw [map_id_of_fix asciiLower s.data (fun c hc => isAllowed_lower_fixed (h c hc))]
  rw [collapseWS_id_of_no_space s.data hsp]
  rw [List.filter_eq_self.mpr h]

/-! ### CSV rendering lemmas -/

theorem csvField_plain {s : String} (h : plainField s) : csvField s = s := by
  unfold csvField
  have hq : ¬(csvNeedsQuote s = true) := by
    intro hq
    simp only [csvNeedsQuote, List.any_eq_true, Bool.or_eq_true, beq_iff_eq] at hq
    obtain ⟨c, hc, hor⟩ := hq
    exact h c hc (by tauto)
  rw [if_neg hq]

theorem csvRow_plain4 {a b c d : String} (ha : plainField a) (hb : plainField b)
    (hc : plainField c) (hd : plainField d) :
    csvRow [a, b, c, d] = a ++ "," ++ b ++ "," ++ c ++ "," ++ d ++ "\r\n" := by
  show csvField a ++ "," ++ (csvField b ++ "," ++ (csvField c ++ "," ++ (csvField d ++ "\r\n")))
      = a ++ "," ++ b ++ "," ++ c ++ "," ++ d ++ "\r\n"
  rw [csvField_plain ha, csvField_plain hb, csvField_plain hc, csvField_plain hd]
  simp only [String.append_assoc]

theorem view_history_found (s : Store) (uname : String) (u : User)
    (h : findUser? s uname = some u) :
    view_history s uname =
      some (u.payments, (u.payments.map (fun r => r.payment_amount)).sum,
        match u.payments.getLast? with
        | some r => r.remaining_balance
        | none => u.total_loan) := by
  unfold view_history
  rw [h]

theorem download_found (render : ℚ → String) (s : Store) (uname : String) (u : User)
    (h : findUser? s uname = some u) :
    download render s uname =
      some (csvRow CSV_HEADERS ++
        String.join (u.payments.map (fun r =>
          csvRow [r.date, render r.payment_amount, render r.remaining_balance,
            r.notes.getD ""]))) := by
  unfold download
  rw [h]

/-! ### The claims -/

/-- C1: for a freshly registered user with principal `P`, after any sequence
of successfully recorded payments the ledger satisfies the balance
recurrence (entry 0 carries amount 0 and balance `P`, and every entry's
balance is the previous balance minus its amount, with no clamping at
zero), and the balance stored with the last recorded payment is `P` minus
the sum of the recorded amounts. -/
theorem C1_balance_recurrence (parse : String → Option ℚ) (s : Store)
    (nm ln ct d : String) (P : ℚ) (items : List (String × String × String))
    (hn : pyStripStr nm ≠ "") (hl : pyStripStr ln ≠ "")
    (hp : parse (pyStripStr ln) = some P)
    (hfree : findUser? s (sanitize_username (pyStripStr nm)) = none)
    (hkey : sanitize_username (pyStripStr nm) ≠ "")
    (hitems : ∀ it ∈ items, pyStripStr it.1 ≠ "" ∧ (parse (pyStripStr it.1)).isSome = true) :
    ∃ u', findUser?
        (run_payments parse (sanitize_username (pyStripStr nm))
          (add_user parse s nm ln ct d).1 items)
        (sanitize_username (pyStripStr nm)) = some u' ∧
      u'.payments.length = items.length + 1 ∧
      chainOk P u'.payments ∧
      (∃ p0, u'.payments.head? = some p0 ∧ p0.payment_amount = 0 ∧
        p0.remaining_balance = P) ∧
      (u'.payments.getLast?).map (fun q => q.remaining_balance) =
        some (P - (items.map (itemAmount parse)).sum) := by
  have hadd := add_user_ok parse s nm ln ct d P hn hl hp hfree
  have h1 : (add_user parse s nm ln ct d).1 =
      ⟨s.users ++ [⟨pyStripStr nm, sanitize_username (pyStripStr nm), P, pyStripStr ct,
        [⟨d, 0, P, some ("Loan started" ++
          (if pyStripStr ct ≠ "" then " | " ++ pyStripStr ct else ""))⟩]⟩]⟩ := by
    rw [hadd]
  have hfind1 := findUser?_snoc_self s
    (⟨pyStripStr nm, sanitize_username (pyStripStr nm), P, pyStripStr ct,
      [⟨d, 0, P, some ("Loan started" ++
        (if pyStripStr ct ≠ "" then " | " ++ pyStripStr ct else ""))⟩]⟩ : User) hfree
  rw [h1]
  obtain ⟨u', hfind', hne', hlen', hhead', hchain'⟩ :=
    run_payments_spec parse (sanitize_username (pyStripStr nm)) hkey items _ _
      hitems hfind1 (by simp)
  have hchain0 : chainOk P [(⟨d, 0, P, some ("Loan started" ++
      (if pyStripStr ct ≠ "" then " | " ++ pyStripStr ct else ""))⟩ : Payment)] :=
    ⟨by rw [sub_zero], trivial⟩
  obtain ⟨hcO, hlO⟩ := hchain' P hchain0
  have hlen2 : u'.payments.length = 1 + items.length := hlen'
  have hhead2 : u'.payments.head? = some (⟨d, 0, P, some ("Loan started" ++
    (if pyStripStr ct ≠ "" then " | " ++ pyStripStr ct else ""))⟩ : Payment) := hhead'
  have hl2 : ledgerLast P u'.payments = P - (items.map (itemAmount parse)).sum := hlO
  refine ⟨u', hfind', by omega, hcO, ⟨_, hhead2, rfl, rfl⟩, ?_⟩
  cases hq : u'.payments.getLast? with
  | none => exact absurd (List.getLast?_eq_none_iff.mp hq) hne'
  | some q =>
    show some q.remaining_balance = some (P - (items.map (itemAmount parse)).sum)
    rw [← ledgerLast_of_getLast? hq P, hl2]

/-- Witness for C1 at a concrete registration with principal 100 followed
by two recorded payments of 30 and 5. -/
theorem C1_balance_recurrence_witness :
    ∃ u', findUser?
        (run_payments toyParse (sanitize_username (pyStripStr "John Doe"))
          (add_user toyParse (⟨[]⟩ : Store) "John Doe" "100" "" "2024-01-01").1
          [("30", "first", "2024-01-02"), ("5", "", "2024-01-03")])
        (sanitize_username (pyStripStr "John Doe")) = some u' ∧
      u'.payments.length =
        ([("30", "first", "2024-01-02"), ("5", "", "2024-01-03")] :
          List (String × String × String)).length + 1 ∧
      chainOk 100 u'.payments ∧
      (∃ p0, u'.payments.head? = some p0 ∧ p0.payment_amount = 0 ∧
        p0.remaining_balance = 100) ∧
      (u'.payments.getLast?).map (fun q => q.remaining_balance) =
        some (100 - (([("30", "first", "2024-01-02"), ("5", "", "2024-01-03")] :
          List (String × String × String)).map (itemAmount toyParse)).sum) :=
  C1_balance_recurrence toyParse ⟨[]⟩ "John Doe" "100" "" "2024-01-01" 100
    [("30", "first", "2024-01-02"), ("5", "", "2024-01-03")]
    (by decide) (by decide) rfl rfl (by decide) (by decide)

/-- C2 counterexample: for a user whose ledger is empty, the code computes
the new balance from the user's `total_loan` (here 100), not from 0 as the
claim states: a payment of 30 yields balance 70, not 0 - 30. -/
theorem C2_counterexample :
    (record_payment toyParse (⟨[⟨"Ghost", "ghost", 100, "", []⟩]⟩ : Store)
        "ghost" "30" "" "2024-01-02").2 = Except.ok ((100 : ℚ) - 30) ∧
    (100 : ℚ) - 30 = 70 ∧ ¬((100 : ℚ) - 30 = 0 - 30) :=
  ⟨rfl, by norm_num, by norm_num⟩

/-- C2 amended: in `record_payment`, if the user exists but has no prior
Payment row, the prior balance is taken to be the user's stored principal
`total_loan`, so the appended Payment's `remaining_balance` equals
`total_loan` minus the payment amount. -/
theorem C2_amended_empty_ledger (parse : String → Option ℚ) (s : Store)
    (uname amt note d : String) (v : ℚ) (u : User)
    (hu : uname ≠ "") (ha : pyStripStr amt ≠ "") (hv : parse (pyStripStr amt) = some v)
    (hfind : findUser? s uname = some u) (hemp : u.payments = []) :
    record_payment parse s uname amt note d =
      (appendPayment s uname ⟨d, v, u.total_loan - v, some (pyStripStr note)⟩,
        Except.ok (u.total_loan - v)) := by
  have h := record_payment_ok parse s uname amt note d v u hu ha hv hfind
  have hpb : prevBalance u = u.total_loan := by
    unfold prevBalance
    rw [hemp]
    rfl
  rw [hpb] at h
  exact h

/-- Witness for the amended C2 at a concrete user with principal 100, an
empty ledger and a payment of 30. -/
theorem C2_amended_empty_ledger_witness :
    record_payment toyParse (⟨[⟨"Ghost", "ghost", 100, "", []⟩]⟩ : Store)
        "ghost" "30" "x" "2024-01-02" =
      (appendPayment (⟨[⟨"Ghost", "ghost", 100, "", []⟩]⟩ : Store) "ghost"
          ⟨"2024-01-02", 30, (100 : ℚ) - 30, some "x"⟩,
        Except.ok ((100 : ℚ) - 30)) :=
  C2_amended_empty_ledger toyParse ⟨[⟨"Ghost", "ghost", 100, "", []⟩]⟩
    "ghost" "30" "x" "2024-01-02" 30 ⟨"Ghost", "ghost", 100, "", []⟩
    (by decide) (by decide) rfl rfl rfl

/-- C3 counterexample: on the input with internal punctuation the code
yields "ab_c" (the exclamation marks are stripped only after the whitespace
run has been collapsed, merging the surrounding letters), not "a_b_c" as
claimed. -/
theorem C3_counterexample :
    sanitize_username "  A!!b **C " = "ab_c" ∧ "ab_c" ≠ "a_b_c" :=
  ⟨by decide, by decide⟩

/-- C3 amended: sanitize_username strips outer whitespace, lower-cases,
collapses internal whitespace runs to a single underscore, then strips
every character outside the allowed class; it maps "John Doe" to
"john_doe" and "  A!!b **C " to "ab_c". -/
theorem C3_amended_examples :
    sanitize_username "John Doe" = "john_doe" ∧
    sanitize_username "  A!!b **C " = "ab_c" :=
  ⟨by decide, by decide⟩

/-- C4: a successful user creation with principal `P` and (stripped)
contact note `c` appends exactly one synthetic opening Payment with amount
0, balance `P`, and note "Loan started" when `c` is empty or
"Loan started | " followed by `c` otherwise; a subsequent history read for
that user yields exactly this one Payment. -/
theorem C4_opening_payment (parse : String → Option ℚ) (s : Store)
    (nm ln ct d : String) (P : ℚ)
    (hn : pyStripStr nm ≠ "") (hl : pyStripStr ln ≠ "")
    (hp : parse (pyStripStr ln) = some P)
    (hfree : findUser? s (sanitize_username (pyStripStr nm)) = none) :
    add_user parse s nm ln ct d =
      (⟨s.users ++ [⟨pyStripStr nm, sanitize_username (pyStripStr nm), P, pyStripStr ct,
          [⟨d, 0, P, some (if pyStripStr ct = "" then "Loan started"
            else "Loan started | " ++ pyStripStr ct)⟩]⟩]⟩,
        Except.ok (sanitize_username (pyStripStr nm))) ∧
    view_history (add_user parse s nm ln ct d).1 (sanitize_username (pyStripStr nm)) =
      some ([⟨d, 0, P, some (if pyStripStr ct = "" then "Loan started"
        else "Loan started | " ++ pyStripStr ct)⟩], 0, P) := by
  have hnote : "Loan started" ++ (if pyStripStr ct ≠ "" then " | " ++ pyStripStr ct else "")
      = (if pyStripStr ct = "" then "Loan started"
          else "Loan started | " ++ pyStripStr ct) := by
    by_cases h : pyStripStr ct = ""
    · simp [h]
    · rw [if_pos h, if_neg h, ← String.append_assoc]
      congr 1
  have hadd := add_user_ok parse s nm ln ct d P hn hl hp hfree
  rw [hnote] at hadd
  refine ⟨hadd, ?_⟩
  have h1 : (add_user parse s nm ln ct d).1 =
      ⟨s.users ++ [⟨pyStripStr nm, sanitize_username (pyStripStr nm), P, pyStripStr ct,
        [⟨d, 0, P, some (if pyStripStr ct = "" then "Loan started"
          else "Loan started | " ++ pyStripStr ct)⟩]⟩]⟩ := by
    rw [hadd]
  have hfind := findUser?_snoc_self s
    (⟨pyStripStr nm, sanitize_username (pyStripStr nm), P, pyStripStr ct,
      [⟨d, 0, P, some (if pyStripStr ct = "" then "Loan started"
        else "Loan started | " ++ pyStripStr ct)⟩]⟩ : User) hfree
  rw [h1, view_history_found _ _ _ hfind]
  simp

/-- Witness for C4 at a concrete registration with principal 100 and a
non-empty contact note. -/
theorem C4_opening_payment_witness :
    add_user toyParse (⟨[]⟩ : Store) "John Doe" "100" "here" "2024-01-01" =
      (⟨[⟨pyStripStr "John Doe", sanitize_username (pyStripStr "John Doe"), 100,
          pyStripStr "here",
          [⟨"2024-01-01", 0, 100, some (if pyStripStr "here" = "" then "Loan started"
            else "Loan started | " ++ pyStripStr "here")⟩]⟩]⟩,
        Except.ok (sanitize_username (pyStripStr "John Doe"))) ∧
    view_history (add_user toyParse (⟨[]⟩ : Store) "John Doe" "100" "here" "2024-01-01").1
        (sanitize_username (pyStripStr "John Doe")) =
      some ([⟨"2024-01-01", 0, 100, some (if pyStripStr "here" = "" then "Loan started"
        else "Loan started | " ++ pyStripStr "here")⟩], 0, 100) :=
  C4_opening_payment toyParse ⟨[]⟩ "John Doe" "100" "here" "2024-01-01" 100
    (by decide) (by decide) rfl rfl

/-- C5: registering a name whose normalized key is already present fails
with AlreadyExists, and the failed call returns the store unchanged, so no
User and no Payment row is added and key uniqueness is preserved. -/
theorem C5_duplicate_rejected (parse : String → Option ℚ) (s : Store)
    (nm ln ct d : String)
    (hn : pyStripStr nm ≠ "") (hl : pyStripStr ln ≠ "")
    (hv : (parse (pyStripStr ln)).isSome = true)
    (hdup : (findUser? s (sanitize_username (pyStripStr nm))).isSome = true) :
    add_user parse s nm ln ct d = (s, Except.error AppError.AlreadyExists) := by
  simp only [add_user]
  rw [if_neg (not_or.mpr ⟨hn, hl⟩)]
  obtain ⟨P, hP⟩ := Option.isSome_iff_exists.mp hv
  rw [hP]
  simp [hdup]

/-- Witness for C5: re-registering a name that collides with the stored
key "john_doe" fails and leaves the store unchanged. -/
theorem C5_duplicate_rejected_witness :
    add_user toyParse (⟨[⟨"John Doe", "john_doe", 100, "",
        [⟨"2024-01-01", 0, 100, some "Loan started"⟩]⟩]⟩ : Store)
      "John  DOE" "30" "" "2024-01-02" =
      ((⟨[⟨"John Doe", "john_doe", 100, "",
        [⟨"2024-01-01", 0, 100, some "Loan started"⟩]⟩]⟩ : Store),
        Except.error AppError.AlreadyExists) :=
  C5_duplicate_rejected toyParse
    ⟨[⟨"John Doe", "john_doe", 100, "", [⟨"2024-01-01", 0, 100, some "Loan started"⟩]⟩]⟩
    "John  DOE" "30" "" "2024-01-02" (by decide) (by decide) rfl (by decide)

/-- C6: record_payment fails with ValidationError when the username or the
stripped amount text is empty or the amount does not parse, and with
NotFound when the username matches no stored user; in every failure case
the returned store is the input store unchanged. -/
theorem C6_record_payment_failures (parse : String → Option ℚ) (s : Store)
    (username amt note d : String) :
    ((username = "" ∨ pyStripStr amt = "" ∨ parse (pyStripStr amt) = none) →
      record_payment parse s username amt note d =
        (s, Except.error AppError.ValidationError)) ∧
    (∀ v : ℚ, username ≠ "" → pyStripStr amt ≠ "" → parse (pyStripStr amt) = some v →
      findUser? s username = none →
      record_payment parse s username amt note d =
        (s, Except.error AppError.NotFound)) :=
  ⟨fun h => record_payment_validation_err parse s username amt note d h,
   fun v h1 h2 h3 h4 => record_payment_notfound_err parse s username amt note d v h1 h2 h3 h4⟩

/-- Witness for C6: an empty username is rejected as a validation error and
an unknown username as not found, both leaving the empty store unchanged. -/
theorem C6_record_payment_failures_witness :
    record_payment toyParse (⟨[]⟩ : Store) "" "30" "" "2024-01-02" =
      ((⟨[]⟩ : Store), Except.error AppError.ValidationError) ∧
    record_payment toyParse (⟨[]⟩ : Store) "ghost" "30" "" "2024-01-02" =
      ((⟨[]⟩ : Store), Except.error AppError.NotFound) :=
  ⟨(C6_record_payment_failures toyParse ⟨[]⟩ "" "30" "" "2024-01-02").1 (Or.inl rfl),
   (C6_record_payment_failures toyParse ⟨[]⟩ "ghost" "30" "" "2024-01-02").2 30
     (by decide) (by decide) rfl rfl⟩

/-- C7: for an existing user the CSV export is the header row followed by
one row per Payment in insertion order, with the date, the rendered amount
and the rendered balance as fields, the notes field the empty string when
the note is absent, and each row terminated by the csv writer's CRLF line
ending, whose final character is a newline. The `hplain` hypothesis states
that no field triggers CSV quoting, which holds of every date and numeric
rendering the app produces. -/
theorem C7_csv_export (render : ℚ → String) (s : Store) (uname : String) (u : User)
    (hfind : findUser? s uname = some u)
    (hplain : ∀ p ∈ u.payments, plainField p.date ∧ plainField (render p.payment_amount) ∧
      plainField (render p.remaining_balance) ∧ plainField (p.notes.getD "")) :
    download render s uname =
      some ("Date,Payment_Amount,Remaining_Balance,Notes\r\n" ++
        String.join (u.payments.map (fun r =>
          r.date ++ "," ++ render r.payment_amount ++ "," ++ render r.remaining_balance
            ++ "," ++ r.notes.getD "" ++ "\r\n"))) := by
  rw [download_found render s uname u hfind]
  have hhdr : csvRow CSV_HEADERS = "Date,Payment_Amount,Remaining_Balance,Notes\r\n" := by
    decide
  have hrows : u.payments.map (fun r =>
      csvRow [r.date, render r.payment_amount, render r.remaining_balance, r.notes.getD ""]) =
    u.payments.map (fun r =>
      r.date ++ "," ++ render r.payment_amount ++ "," ++ render r.remaining_balance
        ++ "," ++ r.notes.getD "" ++ "\r\n") := by
    apply List.map_congr_left
    intro r hr
    obtain ⟨h1, h2, h3, h4⟩ := hplain r hr
    exact csvRow_plain4 h1 h2 h3 h4
  rw [hhdr, hrows]

/-- Witness for C7 at a two-payment ledger whose second payment carries no
note, using a concrete rendering of the four rationals involved. -/
theorem C7_csv_export_witness :
    download (fun q => if q = 0 then "0.0" else if q = 100 then "100.0"
        else if q = 20 then "20.0" else if q = 80 then "80.0" else "")
      (⟨[⟨"John Doe", "john_doe", 100, "",
        [⟨"2024-01-01", 0, 100, some "Loan started"⟩,
         ⟨"2024-01-02", 20, 80, none⟩]⟩]⟩ : Store) "john_doe" =
      some ("Date,Payment_Amount,Remaining_Balance,Notes\r\n" ++
        String.join ([(⟨"2024-01-01", 0, 100, some "Loan started"⟩ : Payment),
            ⟨"2024-01-02", 20, 80, none⟩].map (fun r =>
          r.date ++ "," ++
            (if r.payment_amount = 0 then "0.0" else if r.payment_amount = 100 then "100.0"
              else if r.payment_amount = 20 then "20.0"
              else if r.payment_amount = 80 then "80.0" else "") ++ "," ++
            (if r.remaining_balance = 0 then "0.0"
              else if r.remaining_balance = 100 then "100.0"
              else if r.remaining_balance = 20 then "20.0"
              else if r.remaining_balance = 80 then "80.0" else "") ++ "," ++
            r.notes.getD "" ++ "\r\n"))) :=
  C7_csv_export
    (fun q => if q = 0 then "0.0" else if q = 100 then "100.0"
      else if q = 20 then "20.0" else if q = 80 then "80.0" else "")
    ⟨[⟨"John Doe", "john_doe", 100, "",
      [⟨"2024-01-01", 0, 100, some "Loan started"⟩, ⟨"2024-01-02", 20, 80, none⟩]⟩]⟩
    "john_doe"
    ⟨"John Doe", "john_doe", 100, "",
      [⟨"2024-01-01", 0, 100, some "Loan started"⟩, ⟨"2024-01-02", 20, 80, none⟩]⟩
    rfl (by decide)

/-- C8: list_users returns the identity keys of all known users in
ascending lexical order (it is sorted and a permutation of the stored
keys), and its result is the same for any creation order of the same
users. -/
theorem C8_list_users_sorted (s : Store) :
    (list_users s).Sorted (fun a b : String => a ≤ b) ∧
    (list_users s).Perm (s.users.map (fun u => u.username)) ∧
    (∀ t : Store, t.users.Perm s.users → list_users t = list_users s) := by
  refine ⟨List.sorted_insertionSort _ _, List.perm_insertionSort _ _, ?_⟩
  intro t ht
  have hs1 : (list_users t).Sorted (fun a b : String => a ≤ b) :=
    List.sorted_insertionSort _ _
  have hs2 : (list_users s).Sorted (fun a b : String => a ≤ b) :=
    List.sorted_insertionSort _ _
  exact List.eq_of_perm_of_sorted
    ((List.perm_insertionSort _ _).trans
      ((ht.map (fun u => u.username)).trans (List.perm_insertionSort _ _).symm))
    hs1 hs2

/-- Witness for C8: two stores holding the same two users in opposite
creation orders produce the same key listing. -/
theorem C8_list_users_sorted_witness :
    list_users (⟨[⟨"B", "b", 1, "", []⟩, ⟨"A", "a", 2, "", []⟩]⟩ : Store) =
      list_users (⟨[⟨"A", "a", 2, "", []⟩, ⟨"B", "b", 1, "", []⟩]⟩ : Store) :=
  (C8_list_users_sorted ⟨[⟨"A", "a", 2, "", []⟩, ⟨"B", "b", 1, "", []⟩]⟩).2.2
    ⟨[⟨"B", "b", 1, "", []⟩, ⟨"A", "a", 2, "", []⟩]⟩
    (List.Perm.swap (⟨"A", "a", 2, "", []⟩ : User) (⟨"B", "b", 1, "", []⟩ : User) [])

/-- C9: the non-empty display name consisting only of disallowed
characters normalizes to the empty key, yet user creation passes
validation and succeeds, storing a user whose identity key is the empty
string together with its opening Payment. -/
theorem C9_empty_key_user_created :
    sanitize_username "!!!" = "" ∧
    add_user toyParse (⟨[]⟩ : Store) "!!!" "100" "" "2024-01-01" =
      (⟨[⟨"!!!", "", 100, "", [⟨"2024-01-01", 0, 100, some "Loan started"⟩]⟩]⟩,
        Except.ok "") :=
  ⟨by decide, by decide⟩

/-- C10: record_payment applies no normalization to its username argument,
so when every stored key consists only of allowed characters (as every
sanitized key does) and the supplied raw name is not fixed by
sanitize_username, the lookup cannot match any stored key and the call
fails with NotFound and leaves the store unchanged, even though the name's
normalized key is present (registration under that name succeeded) and the
amount is valid. -/
theorem C10_raw_name_not_found (parse : String → Option ℚ) (s : Store)
    (nm amt note d : String)
    (hkeys : ∀ u ∈ s.users, ∀ c ∈ u.username.data, isAllowed c = true)
    (hne : nm ≠ sanitize_username nm)
    (_hreg : (findUser? s (sanitize_username nm)).isSome = true)
    (ha : pyStripStr amt ≠ "") (hv : (parse (pyStripStr amt)).isSome = true) :
    record_payment parse s nm amt note d = (s, Except.error AppError.NotFound) := by
  have hnm : nm ≠ "" := by
    intro he
    apply hne
    rw [he]
    decide
  have hfind : findUser? s nm = none := by
    cases hf : findUser? s nm with
    | none => rfl
    | some u =>
      exfalso
      have hbeq := List.find?_some hf
      have hmem := List.mem_of_find?_eq_some hf
      have heq : u.username = nm := by simpa using hbeq
      have hall := hkeys u hmem
      rw [heq] at hall
      exact hne (sanitize_username_eq_self hall).symm
  obtain ⟨v, hvv⟩ := Option.isSome_iff_exists.mp hv
  exact record_payment_notfound_err parse s nm amt note d v hnm ha hvv hfind

/-- Witness for C10: after registering "John Doe" (stored key "john_doe"),
recording a payment under the raw name "John Doe" fails with NotFound. -/
theorem C10_raw_name_not_found_witness :
    record_payment toyParse (⟨[⟨"John Doe", "john_doe", 100, "",
        [⟨"2024-01-01", 0, 100, some "Loan started"⟩]⟩]⟩ : Store)
      "John Doe" "30" "" "2024-01-02" =
      ((⟨[⟨"John Doe", "john_doe", 100, "",
        [⟨"2024-01-01", 0, 100, some "Loan started"⟩]⟩]⟩ : Store),
        Except.error AppError.NotFound) :=
  C10_raw_name_not_found toyParse
    ⟨[⟨"John Doe", "john_doe", 100, "", [⟨"2024-01-01", 0, 100, some "Loan started"⟩]⟩]⟩
    "John Doe" "30" "" "2024-01-02"
    (by decide) (by decide) (by decide) (by decide) rfl

end Finance
